import Mathlib

/-!
Verification of the web-scraping research pipeline in
`src/utils/web_scraper.py` (class `WebScraper`).

Strings are embedded as `List Char` and Python string primitives
(`strip`, `lower`, `find`, `split`, `replace`, slicing) are given
executable Lean counterparts.  External effects — the HTTP library, the
search API and the LLM — are modelled by outcome parameters: each
function that consults them takes the outcome of that consultation as
an explicit argument, and the surrounding control flow (retry loops,
try/except handlers, JSON-result merging) is translated from the
source.  Exceptions are `Except` errors; Python `None` is `Option.none`
or the JSON `null` value.
-/

namespace WebScraper

/-- Strings of the embedded program: Python `str` as a list of characters. -/
abbrev Str := List Char

/-- Python whitespace characters recognised by `str.strip` / `str.split()`. -/
def isPyWs (c : Char) : Bool :=
  c = ' ' ∨ c = '\t' ∨ c = '\n' ∨ c = '\r' ∨ c = '\x0b' ∨ c = '\x0c'

/-- Python `str.strip()`: drop whitespace from both ends. -/
def pyStrip (s : Str) : Str :=
  ((s.dropWhile isPyWs).reverse.dropWhile isPyWs).reverse

/-- Python `str.lower()` (ASCII view, which is all the source uses). -/
def pyLower (s : Str) : Str := s.map Char.toLower

/-- Python `sub in s` / `s.find(sub)`: index of the first occurrence of
`pat` in `s`, if any. -/
def pyFindSub : Str → Str → Option Nat
  | [], pat => if List.isPrefixOf pat [] then some 0 else none
  | c :: rest, pat =>
      if List.isPrefixOf pat (c :: rest) then some 0
      else (pyFindSub rest pat).map (· + 1)

/-- Python `s.find(ch, start)` for a single-character needle: first index
`≥ start` holding `ch`, if any. -/
def pyFindCharFrom (s : Str) (ch : Char) (start : Nat) : Option Nat :=
  (pyFindSub (s.drop start) [ch]).map (· + start)

/-- Python slice `s[a:b]` for `a ≤ b` (the only form the source uses). -/
def pySlice (s : Str) (a b : Nat) : Str := (s.take b).drop a

/-- Worker for `pySplitSep`; the fuel starts at the string length and each
step consumes at least one character, so it never runs out. -/
def splitSepGo (sep : Str) : Nat → Str → Str → List Str
  | _, cur, [] => [cur.reverse]
  | 0, cur, s => [cur.reverse ++ s]
  | fuel + 1, cur, c :: rest =>
      if List.isPrefixOf sep (c :: rest) then
        cur.reverse :: splitSepGo sep fuel [] (List.drop sep.length (c :: rest))
      else
        splitSepGo sep fuel (c :: cur) rest

/-- Python `s.split(sep)` for a nonempty separator: split on every
occurrence, keeping empty fragments. -/
def pySplitSep (s sep : Str) : List Str :=
  if sep = [] then [s] else splitSepGo sep s.length [] s

/-- Worker for `pyReplace`; fuel as in `splitSepGo`. -/
def replaceGo (pat rep : Str) : Nat → Str → Str
  | _, [] => []
  | 0, s => s
  | fuel + 1, c :: rest =>
      if List.isPrefixOf pat (c :: rest) then
        rep ++ replaceGo pat rep fuel (List.drop pat.length (c :: rest))
      else
        c :: replaceGo pat rep fuel rest

/-- Python `s.replace(pat, rep)` for nonempty `pat`: replace every
non-overlapping occurrence, scanning left to right. -/
def pyReplace (s pat rep : Str) : Str :=
  if pat = [] then s else replaceGo pat rep s.length s

/-- Python `s.splitlines()` worker: emit the current line at each line
break (`\r\n`, `\r` or `\n`), with no empty trailing line. -/
def splitlinesGo : Str → Nat → Str → List Str
  | cur, _, [] => [cur.reverse]
  | cur, 0, s => [cur.reverse ++ s]
  | cur, fuel + 1, '\r' :: '\n' :: rest =>
      cur.reverse :: (if rest.isEmpty then [] else splitlinesGo [] fuel rest)
  | cur, fuel + 1, '\r' :: rest =>
      cur.reverse :: (if rest.isEmpty then [] else splitlinesGo [] fuel rest)
  | cur, fuel + 1, '\n' :: rest =>
      cur.reverse :: (if rest.isEmpty then [] else splitlinesGo [] fuel rest)
  | cur, fuel + 1, c :: rest => splitlinesGo (c :: cur) fuel rest

/-- Python `s.splitlines()`. -/
def pySplitlines (s : Str) : List Str :=
  if s.isEmpty then [] else splitlinesGo [] s.length s

/-- Python `sep.join(parts)`. -/
def joinSep (sep : Str) (parts : List Str) : Str := List.intercalate sep parts

/-! ### HTTP fetcher: `_make_request` (web_scraper.py lines 61-127)

The outcome of each `requests.get` attempt is an explicit parameter
`outcome : Nat → AttemptOutcome` (attempt index to what the network did).
`runAttempts` is the `for attempt in range(max_retries)` loop: its
`Except` result distinguishes an exception propagating out of the loop
(`.error`) from a normal return (`.ok`: `some i` means attempt `i`
returned the 200 response, `none` means `return None`), and it records
the `time.sleep` delays in seconds in order. -/

instance {ε α : Type} [DecidableEq ε] [DecidableEq α] : DecidableEq (Except ε α) :=
  fun a b =>
    match a, b with
    | .ok x, .ok y =>
        if h : x = y then .isTrue (by rw [h]) else .isFalse (by simp [h])
    | .error x, .error y =>
        if h : x = y then .isTrue (by rw [h]) else .isFalse (by simp [h])
    | .ok _, .error _ => .isFalse (by simp)
    | .error _, .ok _ => .isFalse (by simp)

/-- What a single `requests.get` attempt did: an HTTP status, a network
exception (`requests.exceptions.RequestException`), or an SSL
verification failure followed by an unverified retry whose own outcome
is a status or an exception. -/
inductive AttemptOutcome where
  | status (code : Nat)
  | netExc
  | sslFail (retryResult : Except Unit Nat)
deriving DecidableEq

/-- `max_retries = 3` (line 77). -/
def maxRetries : Nat := 3

/-- `base_delay = 2` seconds (line 78). -/
def baseDelay : Nat := 2

/-- Result of the retry loop: the control-flow outcome plus the list of
backoff sleeps performed, in seconds. -/
structure LoopOut where
  result : Except Unit (Option Nat)
  delays : List Nat
deriving DecidableEq

/-- The retry loop of `_make_request` (lines 80-123), starting at attempt
`i` with `rem` attempts remaining.  On status 200 the response is
returned; on 429/502 it sleeps `base_delay * 2 ** attempt` and retries;
on any other status it returns `None` at once.  On a network exception
it sleeps and retries unless this is the last attempt, in which case it
re-raises (line 121).  On an SSL failure the unverified retry's 200 is
returned; its non-200 falls through to the next attempt with no sleep,
and its exception propagates out of the loop.  A fallen-through loop
returns `None` (line 123). -/
def runAttempts (outcome : Nat → AttemptOutcome) : Nat → Nat → LoopOut
  | _, 0 => ⟨.ok none, []⟩
  | i, rem + 1 =>
      match outcome i with
      | .status c =>
          if c = 200 then ⟨.ok (some i), []⟩
          else if c = 429 ∨ c = 502 then
            let rest := runAttempts outcome (i + 1) rem
            ⟨rest.result, baseDelay * 2 ^ i :: rest.delays⟩
          else ⟨.ok none, []⟩
      | .netExc =>
          if i < maxRetries - 1 then
            let rest := runAttempts outcome (i + 1) rem
            ⟨rest.result, baseDelay * 2 ^ i :: rest.delays⟩
          else ⟨.error (), []⟩
      | .sslFail r =>
          match r with
          | .ok c2 =>
              if c2 = 200 then ⟨.ok (some i), []⟩
              else runAttempts outcome (i + 1) rem
          | .error _ => ⟨.error (), []⟩

/-- `_make_request` as seen by its caller: the loop runs from attempt 0,
and the function-level `try/except Exception` (lines 63, 125-127) turns
any exception that escapes the loop into a returned `None`. -/
def makeRequest (outcome : Nat → AttemptOutcome) : Option Nat × List Nat :=
  let l := runAttempts outcome 0 maxRetries
  match l.result with
  | .ok r => (r, l.delays)
  | .error _ => (none, l.delays)

/-! ### Content cleaner: `_extract_raw_content` (lines 286-296)

The HTML parsing (BeautifulSoup) is external; the embedding starts from
the extracted text at line 285 and models the "Clean up text" block:
strip each line, split lines on double spaces, strip the fragments,
drop empty ones, rejoin with single spaces, truncate to 4000. -/

/-- The `text[:4000]` content cap (line 293). -/
def contentLimit : Nat := 4000

/-- Lines 288-290: `lines = (line.strip() for line in text.splitlines())`;
`chunks = (phrase.strip() for line in lines for phrase in line.split("  "))`;
`' '.join(chunk for chunk in chunks if chunk)`. -/
def normalizeText (text : Str) : Str :=
  let lines := (pySplitlines text).map pyStrip
  let chunks := (lines.map (fun l => (pySplitSep l "  ".data).map pyStrip)).flatten
  joinSep " ".data (chunks.filter (fun c => ¬c.isEmpty))

/-- The cleaned text `_extract_raw_content` returns for a successfully
fetched page: the normalized text truncated to `text[:4000]` (line 293). -/
def extractCleanText (text : Str) : Str := (normalizeText text).take contentLimit

/-! ### Keyword generation: `_generate_search_keywords` (lines 135-158)

`modelInitialized` is whether `self.gemini_model` is set; `callResult`
is the outcome of `generate_content` + `response.text` (`.error` when it
raises). -/

/-- `_generate_search_keywords`: `[query]` when the model is missing
(line 139) or the call raises (line 158); otherwise
`[k.strip() for k in response.text.split('\n') if k.strip()]` (line 153). -/
def generateSearchKeywords (modelInitialized : Bool) (query : Str)
    (callResult : Except Unit Str) : List Str :=
  if ¬modelInitialized then [query]
  else
    match callResult with
    | .error _ => [query]
    | .ok text => ((pySplitSep text "\n".data).map pyStrip).filter (fun k => ¬k.isEmpty)

/-! ### JSON values and Python dicts

`json.loads` output and the `company_data` / `prospect_data` dicts are
modelled as ordered key-value lists (Python dicts preserve insertion
order).  `JVal.truthy` is Python truthiness, which the merge loops and
the fallback use (`if value:`). -/

/-- A parsed JSON value. -/
inductive JVal where
  | null
  | bool (b : Bool)
  | num (n : Int)
  | str (s : Str)
  | arr (elems : List JVal)
  | obj (fields : List (Str × JVal))

/-- Python truthiness of a JSON value: `None`, `False`, `0`, `""`, `[]`
and `{}` are falsy. -/
def JVal.truthy : JVal → Bool
  | .null => false
  | .bool b => b
  | .num n => n != 0
  | .str s => ¬s.isEmpty
  | .arr elems => ¬elems.isEmpty
  | .obj fields => ¬fields.isEmpty

/-- A Python dict with string keys, in insertion order. -/
abbrev Rec := List (Str × JVal)

/-- Python `d[k] = v`: overwrite in place if `k` is present, else append. -/
def pyDictSet : Rec → Str → JVal → Rec
  | [], k, v => [(k, v)]
  | (k', v') :: rest, k, v =>
      if k' = k then (k, v) :: rest else (k', v') :: pyDictSet rest k v

/-- Python `d.get(k)` / `d[k]`. -/
def recGet : Rec → Str → Option JVal
  | [], _ => none
  | (k', v) :: rest, k => if k' = k then some v else recGet rest k

/-- The merge loops at lines 547-549 and 728-730:
`for key, value in info.items(): if value: data[key] = value`.
Keys absent from the placeholder dict are appended as new keys. -/
def mergeTruthy (d : Rec) (info : List (Str × JVal)) : Rec :=
  info.foldl (fun acc kv => if kv.2.truthy then pyDictSet acc kv.1 kv.2 else acc) d

/-! ### Code-fence stripping before `json.loads` (C7 call sites) -/

/-- The response preprocessing at the relevance-selection site (lines
398-399) and the company-extraction site (lines 538-540):
`response.text.strip().replace('```json', '').replace('```', '').strip()`. -/
def stripCodeFences (t : Str) : Str :=
  pyStrip (pyReplace (pyReplace (pyStrip t) "```json".data []) "```".data [])

/-- The response preprocessing at the prospect-extraction site: line 723
parses `response.text` directly, with no stripping or fence removal. -/
def prospectPreprocess (t : Str) : Str := t

/-! ### Company record: `scrape_company_info` (lines 437-644) -/

/-- The placeholder record built at lines 442-452. -/
def initialCompanyData (name : Str) : Rec :=
  [("name".data, .str name),
   ("description".data, .null),
   ("industry".data, .null),
   ("headquarters".data, .null),
   ("founded".data, .null),
   ("size".data, .null),
   ("ceo".data, .null),
   ("website".data, .null),
   ("executive_summary".data, .null)]

/-- Python `s.split(ch, 1)` split at the first occurrence only: the parts
before and after the first `ch`, or `none` when `ch` does not occur (in
which case the source's `[1]` raises `IndexError`). -/
def pySplitOnce (s : Str) (ch : Char) : Option (Str × Str) :=
  match pyFindSub s [ch] with
  | none => none
  | some i => some (s.take i, s.drop (i + 1))

/-- One label scan of the heuristic fallback (the pattern repeated at
lines 565-619): if `label` occurs in `response_text.lower()`, take the
text from the first occurrence to the next `\n` (or the end when
`find` returns `-1`), split on the first colon and strip the remainder;
a missing colon is the `IndexError` of `split(":", 1)[1]`.  A label that
does not occur leaves its variable `None`. -/
def extractLabel (t label : Str) : Except Unit (Option Str) :=
  match pyFindSub (pyLower t) label with
  | none => .ok none
  | some start =>
      let stop :=
        match pyFindCharFrom t '\n' start with
        | none => t.length
        | some j => j
      match pySplitOnce (pySlice t start stop) ':' with
      | none => .error ()
      | some p => .ok (some (pyStrip p.2))

/-- The values the heuristic fallback scans out of the raw response
(local variables at lines 557-563). -/
structure FallbackVals where
  description : Option Str
  industry : Option Str
  location : Option Str
  founding_date : Option Str
  size : Option Str
  ceo_name : Option Str
  website : Option Str

/-- The whole heuristic scan (lines 556-619): all seven labels are
extracted before any update; an `IndexError` in any of them aborts the
fallback (caught at line 637), so nothing is set. -/
def heuristicExtract (t : Str) : Except Unit FallbackVals := do
  let description ← extractLabel t "description".data
  let industry ← extractLabel t "industry".data
  let location ← extractLabel t "location".data
  let founding_date ← extractLabel t "founding".data
  let size ← extractLabel t "size".data
  let ceo_name ← extractLabel t "ceo".data
  let website ← extractLabel t "website".data
  return ⟨description, industry, location, founding_date, size, ceo_name, website⟩

/-- One conditional update of the fallback's apply block
(`if description: company_data["description"] = description`, ...):
set only when the value is a truthy (nonempty) string. -/
def setIfSome (d : Rec) (key : Str) : Option Str → Rec
  | some v => if ¬v.isEmpty then pyDictSet d key (.str v) else d
  | none => d

/-- The fallback's update block (lines 621-635); note the key mapping
`location → headquarters`, `founding_date → founded`, `ceo_name → ceo`. -/
def applyFallback (d : Rec) (fb : FallbackVals) : Rec :=
  let d := setIfSome d "description".data fb.description
  let d := setIfSome d "industry".data fb.industry
  let d := setIfSome d "headquarters".data fb.location
  let d := setIfSome d "founded".data fb.founding_date
  let d := setIfSome d "size".data fb.size
  let d := setIfSome d "ceo".data fb.ceo_name
  let d := setIfSome d "website".data fb.website
  d

/-- Lines 536-638: what `scrape_company_info` does with the extraction
response.  `raw` is `response.text`; `parsed` is the outcome of
`json.loads` on `stripCodeFences raw` (`.ok` with the parsed object, or
`.error` for `json.JSONDecodeError`).  On success every truthy field is
merged into the placeholder under its response key (lines 547-549); on
parse failure the heuristic fallback runs on the stripped text. -/
def companyApplyResponse (name raw : Str)
    (parsed : Except Unit (List (Str × JVal))) : Rec :=
  match parsed with
  | .ok info => mergeTruthy (initialCompanyData name) info
  | .error _ =>
      match heuristicExtract (stripCodeFences raw) with
      | .ok fb => applyFallback (initialCompanyData name) fb
      | .error _ => initialCompanyData name

/-! ### Prospect record: `scrape_prospect_info` (lines 646-740) -/

/-- The placeholder record built at lines 651-659; `company` is the
optional `company_name` argument. -/
def initialProspectData (name : Str) (company : Option Str) : Rec :=
  [("name".data, .str name),
   ("title".data, .null),
   ("company".data, match company with | some c => .str c | none => .null),
   ("location".data, .null),
   ("experience".data, .null),
   ("education".data, .null),
   ("linkedin_url".data, .null)]

/-- Lines 721-734: what `scrape_prospect_info` does with the extraction
response.  `parsed` is the outcome of `json.loads(response.text)`.
On success every truthy field is merged (lines 728-730); on parse
failure the handler only logs — there is no fallback, the placeholder
is returned unchanged. -/
def prospectApplyResponse (name : Str) (company : Option Str)
    (parsed : Except Unit (List (Str × JVal))) : Rec :=
  match parsed with
  | .ok info => mergeTruthy (initialProspectData name company) info
  | .error _ => initialProspectData name company

/-! ### Search hits and URL deduplication (lines 194-225, 461-473, 670-682) -/

/-- The normalized `metadata` mapping built from the Google pagemap at
lines 207-220; absent sub-fields are empty strings.  (`sectionName` is
the source's `section` key, renamed because `section` is reserved.) -/
structure HitMetadata where
  description : Str
  ogType : Str
  site_name : Str
  published_time : Str
  modified_time : Str
  author : Str
  sectionName : Str
  organization_name : Str
  organization_url : Str
  person_name : Str
  person_job_title : Str
  person_affiliation : Str
deriving DecidableEq

/-- A normalized search hit (lines 202-221). -/
structure SearchHit where
  title : Str
  url : Str
  snippet : Str
  source : Str
  metadata : HitMetadata
deriving DecidableEq

/-- The body of the collection loop (lines 470-473 and 679-682): append
a result only when its url has not been seen, recording the url. -/
def addUnseen (acc : List SearchHit × List Str) (r : SearchHit) :
    List SearchHit × List Str :=
  if r.url ∈ acc.2 then acc else (acc.1 ++ [r], acc.2 ++ [r.url])

/-- The merged candidate pool (lines 461-473 / 670-682): iterate over the
per-keyword result lists, skipping urls already in `seen_urls`. -/
def collectAllUrls (searchResults : List (List SearchHit)) : List SearchHit :=
  (searchResults.foldl (fun acc results => results.foldl addUnseen acc) ([], [])).1

/-! ### Relevance selector: `_select_relevant_urls` (lines 302-435) -/

/-- One verdict object of the model's JSON array (schema at lines
346-356); the non-url fields are arbitrary JSON values, copied onto the
candidate verbatim. -/
structure Verdict where
  url : Str
  is_relevant : JVal
  relevance_score : JVal
  reason : JVal
  content_type : JVal
  key_factors : JVal

/-- A candidate as `_select_relevant_urls` returns it: the original hit
dict, possibly annotated with the relevance fields copied from a verdict
(lines 407-411). -/
structure SelHit where
  base : SearchHit
  ann : Option Verdict

/-- Outcome of the selector's model call: the `generate_content` call (or
anything before it) raised; the response failed `json.loads`
(`json.JSONDecodeError`); or it parsed as a list of verdict objects. -/
inductive SelectorOutcome where
  | callRaises
  | parseFails
  | parsed (verdicts : List Verdict)

/-- `_select_relevant_urls`.  On `callRaises` the outer handler returns
`urls` (line 435); on `parseFails` the `JSONDecodeError` handler returns
`urls` (line 431); both leave every candidate unannotated.  On a parsed
response, each verdict is matched to the first input candidate with the
same url (verdicts matching no candidate are dropped, line 405), the
relevance fields are copied on, and the result is filtered to truthy
`is_relevant` (line 415).  (The source annotates the candidate dicts in
place; with one verdict per url — what the prompt demands — this pure
version agrees.) -/
def selectRelevantUrls (urls : List SearchHit) (outcome : SelectorOutcome) :
    List SelHit :=
  match outcome with
  | .callRaises => urls.map (fun u => ⟨u, none⟩)
  | .parseFails => urls.map (fun u => ⟨u, none⟩)
  | .parsed verdicts =>
      let matched := verdicts.filterMap (fun v =>
        (urls.find? (fun u => decide (u.url = v.url))).map (fun u => SelHit.mk u (some v)))
      matched.filter (fun s =>
        match s.ann with
        | some v => v.is_relevant.truthy
        | none => false)

/-- The field keys of the documented company extraction JSON schema
(prompt lines 496-520); there is no "name" key. -/
def companySchemaKeys : List Str :=
  ["description".data, "industry".data, "location".data, "founding_date".data,
   "size".data, "ceo_name".data, "website".data, "executive_summary".data]

/-- The field keys of the documented prospect extraction JSON schema
(prompt lines 706-713); there is no "name" key. -/
def prospectSchemaKeys : List Str :=
  ["current_title".data, "company_name".data, "location".data,
   "experience".data, "education".data, "linkedin_url".data]

/-- Reference form of first-wins URL deduplication, used to specify the
accumulator loop `collectAllUrls`: keep a hit iff its url is not in
`seen` and has not occurred earlier in the list. -/
def dedupeKeepFirst : List SearchHit → List Str → List SearchHit
  | [], _ => []
  | r :: rest, seen =>
      if r.url ∈ seen then dedupeKeepFirst rest seen
      else r :: dedupeKeepFirst rest (seen ++ [r.url])

/-- Empty metadata block (every sub-field an empty string, as
`_search_google` produces for absent pagemap data). -/
def demoMeta : HitMetadata := ⟨[], [], [], [], [], [], [], [], [], [], [], []⟩

/-- Demonstration hit: first keyword's hit for url "u1". -/
def demoHitA1 : SearchHit := ⟨"A1".data, "u1".data, "s1".data, "google".data, demoMeta⟩

/-- Demonstration hit: second keyword's hit for the same url "u1" with
different fields. -/
def demoHitA2 : SearchHit := ⟨"A2".data, "u1".data, "s2".data, "google".data, demoMeta⟩

/-- Demonstration hit for url "u2". -/
def demoHitB : SearchHit := ⟨"B".data, "u2".data, "s3".data, "google".data, demoMeta⟩

/-- Two per-keyword result lists sharing the url "u1". -/
def demoSearches : List (List SearchHit) := [[demoHitA1, demoHitB], [demoHitA2]]

/-! ## Theorems -/

/-! ### Lemmas about the deduplicating collection loop -/

theorem foldl_addUnseen_flatten (srs : List (List SearchHit))
    (acc : List SearchHit × List Str) :
    srs.foldl (fun a results => results.foldl addUnseen a) acc =
      srs.flatten.foldl addUnseen acc := by
  induction srs generalizing acc with
  | nil => rfl
  | cons l rest ih => simp [List.foldl_append, ih]

theorem foldl_addUnseen_eq (l : List SearchHit) (all : List SearchHit) (seen : List Str) :
    l.foldl addUnseen (all, seen) =
      (all ++ dedupeKeepFirst l seen,
        seen ++ (dedupeKeepFirst l seen).map SearchHit.url) := by
  induction l generalizing all seen with
  | nil => simp [dedupeKeepFirst]
  | cons r rest ih =>
      by_cases h : r.url ∈ seen
      · simp [addUnseen, h, dedupeKeepFirst, ih]
      · simp [addUnseen, h, dedupeKeepFirst, ih]

theorem collectAllUrls_eq (srs : List (List SearchHit)) :
    collectAllUrls srs = dedupeKeepFirst srs.flatten [] := by
  unfold collectAllUrls
  rw [foldl_addUnseen_flatten, foldl_addUnseen_eq]
  simp

theorem dedupeKeepFirst_first_seen (l : List SearchHit) (seen : List Str) :
    ∀ h ∈ dedupeKeepFirst l seen,
      h.url ∉ seen ∧ l.find? (fun r => decide (r.url = h.url)) = some h := by
  induction l generalizing seen with
  | nil => simp [dedupeKeepFirst]
  | cons r rest ih =>
      by_cases hm : r.url ∈ seen
      · intro h hh
        rw [dedupeKeepFirst, if_pos hm] at hh
        obtain ⟨hns, hfind⟩ := ih seen h hh
        have hne : r.url ≠ h.url := fun he => hns (he ▸ hm)
        refine ⟨hns, ?_⟩
        rw [List.find?_cons_of_neg _ (by simp [hne]), hfind]
      · intro h hh
        rw [dedupeKeepFirst, if_neg hm] at hh
        rcases List.mem_cons.1 hh with rfl | hh'
        · exact ⟨hm, List.find?_cons_of_pos _ (by simp)⟩
        · obtain ⟨hns, hfind⟩ := ih (seen ++ [r.url]) h hh'
          have hnseen : h.url ∉ seen := fun hc => hns (List.mem_append_left _ hc)
          have hne : r.url ≠ h.url := fun he => hns (by simp [he])
          refine ⟨hnseen, ?_⟩
          rw [List.find?_cons_of_neg _ (by simp [hne]), hfind]

theorem dedupeKeepFirst_nodup (l : List SearchHit) (seen : List Str) :
    ((dedupeKeepFirst l seen).map SearchHit.url).Nodup := by
  induction l generalizing seen with
  | nil => simp [dedupeKeepFirst]
  | cons r rest ih =>
      by_cases hm : r.url ∈ seen
      · rw [dedupeKeepFirst, if_pos hm]; exact ih seen
      · rw [dedupeKeepFirst, if_neg hm]
        simp only [List.map_cons]
        refine List.nodup_cons.2 ⟨?_, ih _⟩
        intro hc
        obtain ⟨h, hh, he⟩ := List.mem_map.1 hc
        exact (dedupeKeepFirst_first_seen rest (seen ++ [r.url]) h hh).1 (by simp [he])

theorem dedupeKeepFirst_complete (l : List SearchHit) (seen : List Str) :
    ∀ r ∈ l, r.url ∈ seen ∨ r.url ∈ (dedupeKeepFirst l seen).map SearchHit.url := by
  induction l generalizing seen with
  | nil => simp
  | cons x rest ih =>
      intro r hr
      by_cases hm : x.url ∈ seen
      · rw [dedupeKeepFirst, if_pos hm]
        rcases List.mem_cons.1 hr with rfl | hr'
        · exact .inl hm
        · exact ih seen r hr'
      · rw [dedupeKeepFirst, if_neg hm]
        simp only [List.map_cons, List.mem_cons]
        rcases List.mem_cons.1 hr with rfl | hr'
        · exact .inr (.inl rfl)
        · rcases ih (seen ++ [x.url]) r hr' with h | h
          · rcases List.mem_append.1 h with h' | h'
            · exact .inl h'
            · exact .inr (.inl (by simpa using h'))
          · exact .inr (.inr h)

/-- C3: the merged candidate pool contains each url exactly once; the
hit kept for a url is the first-seen occurrence across the per-keyword
result lists in search order, with all its fields; and every url that
occurred anywhere is represented (later duplicates are dropped, nothing
else is). -/
theorem dedupe_first_seen (searchResults : List (List SearchHit)) :
    ((collectAllUrls searchResults).map SearchHit.url).Nodup ∧
    (∀ h ∈ collectAllUrls searchResults,
        searchResults.flatten.find? (fun r => decide (r.url = h.url)) = some h) ∧
    (∀ r ∈ searchResults.flatten,
        r.url ∈ (collectAllUrls searchResults).map SearchHit.url) := by
  rw [collectAllUrls_eq]
  exact ⟨dedupeKeepFirst_nodup _ _,
    fun h hh => (dedupeKeepFirst_first_seen _ _ h hh).2,
    fun r hr => (dedupeKeepFirst_complete _ _ r hr).resolve_left (by simp)⟩

/-- Witness for C3 on two keyword result lists sharing the url "u1":
the pool's urls are duplicate-free, the hit kept for "u1" is the first
occurrence `demoHitA1` (not `demoHitA2`), and "u1" is still present. -/
theorem dedupe_first_seen_witness :
    ((collectAllUrls demoSearches).map SearchHit.url).Nodup ∧
    demoSearches.flatten.find? (fun r => decide (r.url = demoHitA1.url)) =
      some demoHitA1 ∧
    demoHitA2.url ∈ (collectAllUrls demoSearches).map SearchHit.url := by
  obtain ⟨h1, h2, h3⟩ := dedupe_first_seen demoSearches
  exact ⟨h1, h2 demoHitA1 (by decide), h3 demoHitA2 (by decide)⟩

/-- C1: if the relevance selector's LLM call raises, or the response
fails JSON parsing, `_select_relevant_urls` returns exactly the original
candidate list — same hits, same order, nothing annotated or filtered. -/
theorem select_fail_open (urls : List SearchHit) :
    ((selectRelevantUrls urls .callRaises).map SelHit.base = urls ∧
      (selectRelevantUrls urls .callRaises).all (fun s => s.ann.isNone) = true) ∧
    ((selectRelevantUrls urls .parseFails).map SelHit.base = urls ∧
      (selectRelevantUrls urls .parseFails).all (fun s => s.ann.isNone) = true) := by
  simp only [selectRelevantUrls, List.map_map, List.all_eq_true, List.mem_map]
  refine ⟨⟨?_, ?_⟩, ?_, ?_⟩ <;>
    first
      | exact List.map_id urls
      | (rintro s ⟨u, _, rfl⟩; rfl)

/-- C4: the cleaned text `_extract_raw_content` produces is the
whitespace-normalized text hard-truncated to a character-level prefix of
at most 4000 characters: its length is `min 4000` of the normalized
length (so a 10,000-character normalized body is capped to exactly
4000), and it is a literal prefix of the normalized text. -/
theorem content_truncation (text : Str) :
    extractCleanText text = (normalizeText text).take contentLimit ∧
    (extractCleanText text).length = min contentLimit (normalizeText text).length ∧
    ∃ rest, extractCleanText text ++ rest = normalizeText text :=
  ⟨rfl, List.length_take contentLimit (normalizeText text),
    ⟨(normalizeText text).drop contentLimit,
      List.take_append_drop contentLimit (normalizeText text)⟩⟩

/-- C5: `_make_request` retries HTTP 429/502 up to 3 attempts total with
backoff delays 2s, 4s, 8s: three retryable statuses give exactly those
delays and a returned `None` (no exception); a 200 on a later attempt
returns early with only the delays so far; any other non-2xx status
fails immediately with no retry, no delay and no exception. -/
theorem backoff_retry_policy :
    (∀ outcome : Nat → AttemptOutcome,
        (∀ i, i < 3 → outcome i = .status 429 ∨ outcome i = .status 502) →
        runAttempts outcome 0 maxRetries = ⟨.ok none, [2, 4, 8]⟩ ∧
        makeRequest outcome = (none, [2, 4, 8])) ∧
    (∀ (outcome : Nat → AttemptOutcome) (k : Nat), k < 3 →
        (∀ i, i < k → outcome i = .status 429 ∨ outcome i = .status 502) →
        outcome k = .status 200 →
        makeRequest outcome = (some k, (List.range k).map fun i => 2 * 2 ^ i)) ∧
    (∀ (outcome : Nat → AttemptOutcome) (c : Nat),
        outcome 0 = .status c → ¬(200 ≤ c ∧ c < 300) → c ≠ 429 → c ≠ 502 →
        runAttempts outcome 0 maxRetries = ⟨.ok none, []⟩ ∧
        makeRequest outcome = (none, [])) := by
  refine ⟨fun outcome h => ?_, fun outcome k hk h h200 => ?_,
    fun outcome c h h2xx h429 h502 => ?_⟩
  · have h0 := h 0 (by norm_num)
    have h1 := h 1 (by norm_num)
    have h2 := h 2 (by norm_num)
    rcases h0 with h0 | h0 <;> rcases h1 with h1 | h1 <;> rcases h2 with h2 | h2 <;>
      simp [makeRequest, runAttempts, maxRetries, baseDelay, h0, h1, h2]
  · interval_cases k
    · simp [makeRequest, runAttempts, maxRetries, h200]
    · have h0 := h 0 (by norm_num)
      rcases h0 with h0 | h0 <;>
        simp [makeRequest, runAttempts, maxRetries, baseDelay, h0, h200] <;> decide
    · have h0 := h 0 (by norm_num)
      have h1 := h 1 (by norm_num)
      rcases h0 with h0 | h0 <;> rcases h1 with h1 | h1 <;>
        simp [makeRequest, runAttempts, maxRetries, baseDelay, h0, h1, h200] <;> decide
  · have hne : c ≠ 200 := by omega
    simp [makeRequest, runAttempts, maxRetries, h, hne, h429, h502]

/-- Witness for C5 at concrete attempt outcomes: all-429, a 502 then a
200, and a single 404. -/
theorem backoff_retry_policy_witness :
    (runAttempts (fun _ => .status 429) 0 maxRetries = ⟨.ok none, [2, 4, 8]⟩ ∧
      makeRequest (fun _ => .status 429) = (none, [2, 4, 8])) ∧
    makeRequest (fun i => if i = 0 then .status 502 else .status 200) =
      (some 1, [2]) ∧
    (runAttempts (fun _ => .status 404) 0 maxRetries = ⟨.ok none, []⟩ ∧
      makeRequest (fun _ => .status 404) = (none, [])) := by
  refine ⟨backoff_retry_policy.1 _ (by decide), ?_,
    backoff_retry_policy.2.2 _ 404 rfl (by decide) (by decide) (by decide)⟩
  have := backoff_retry_policy.2.1 (fun i => if i = 0 then .status 502 else .status 200)
    1 (by decide) (by decide) (by decide)
  simpa using this

/-- C6 counterexample: with a network exception on every attempt, the
retry loop does re-raise after the backoff delays 2s, 4s, but
`_make_request`'s function-level `except Exception` handler (lines
125-127) catches it and returns `None` — the caller receives a
non-raising failure value, contradicting the claim that the exception
is re-raised to the caller. -/
theorem netexc_swallowed_cex :
    runAttempts (fun _ => .netExc) 0 maxRetries = ⟨.error (), [2, 4]⟩ ∧
    makeRequest (fun _ => .netExc) = (none, [2, 4]) :=
  ⟨rfl, rfl⟩

/-- C6 amended: when every attempt raises a network-level exception, the
same backoff policy is applied between attempts (delays 2s, 4s), and
after exhausting the retries the loop re-raises — but the re-raised
exception is caught by the function's outer handler, which returns
`None` to the caller instead of propagating it. -/
theorem netexc_retry_amended (outcome : Nat → AttemptOutcome)
    (h : ∀ i, i < 3 → outcome i = .netExc) :
    runAttempts outcome 0 maxRetries = ⟨.error (), [2, 4]⟩ ∧
    makeRequest outcome = (none, [2, 4]) := by
  have h0 := h 0 (by norm_num)
  have h1 := h 1 (by norm_num)
  have h2 := h 2 (by norm_num)
  simp [makeRequest, runAttempts, maxRetries, baseDelay, h0, h1, h2]

/-- Witness for C6 (amended) at the all-exception outcome. -/
theorem netexc_retry_amended_witness :
    runAttempts (fun _ => .netExc) 0 maxRetries = ⟨.error (), [2, 4]⟩ ∧
    makeRequest (fun _ => .netExc) = (none, [2, 4]) :=
  netexc_retry_amended (fun _ => .netExc) (fun _ _ => rfl)

/-- C2 (code-bug evaluation): in the Acme Corp scenario, with the
extraction model returning
`{"industry": "Robotics", "ceo_name": "Jane Doe", "executive_summary": null}`
and parsing succeeding, the merged record keeps name="Acme Corp" and
industry="Robotics" and leaves executive_summary and the other
placeholders null as claimed — but the placeholder `ceo` field stays
null and "Jane Doe" lands under a new `ceo_name` key, because the merge
at lines 547-549 copies the response's schema keys verbatim (unlike the
fallback path, which maps `ceo_name` to `ceo` at line 633, and unlike
the consumers, which read `ceo`). -/
theorem company_merge_acme_eval :
    companyApplyResponse "Acme Corp".data
        "\x7b\"industry\": \"Robotics\", \"ceo_name\": \"Jane Doe\", \"executive_summary\": null\x7d".data
        (.ok [("industry".data, .str "Robotics".data),
              ("ceo_name".data, .str "Jane Doe".data),
              ("executive_summary".data, .null)]) =
      [("name".data, .str "Acme Corp".data),
       ("description".data, .null),
       ("industry".data, .str "Robotics".data),
       ("headquarters".data, .null),
       ("founded".data, .null),
       ("size".data, .null),
       ("ceo".data, .null),
       ("website".data, .null),
       ("executive_summary".data, .null),
       ("ceo_name".data, .str "Jane Doe".data)] := rfl

/-- C7 counterexample: a code-fenced JSON response reaches the
prospect-extraction site's `json.loads` (line 723) completely unchanged,
fence markers included, even though the same response would have its
markers stripped by the preprocessing the other two sites use — so it
is not the case that every JSON-parsed call site strips fence markers
before parsing. -/
theorem prospect_fence_cex :
    prospectPreprocess "```json\n\x7b\"industry\": \"Robotics\"\x7d\n```".data =
      "```json\n\x7b\"industry\": \"Robotics\"\x7d\n```".data ∧
    (pyFindSub "```json\n\x7b\"industry\": \"Robotics\"\x7d\n```".data "```".data).isSome = true ∧
    stripCodeFences "```json\n\x7b\"industry\": \"Robotics\"\x7d\n```".data =
      "\x7b\"industry\": \"Robotics\"\x7d".data := ⟨rfl, rfl, rfl⟩

/-- C7 amended: the relevance-selection and company-extraction sites
strip code-fence markers before JSON parsing (a fenced JSON body is
reduced to its bare JSON text), but the prospect-extraction site parses
the raw response text unmodified, so fence markers are not stripped
there. -/
theorem fence_strip_amended (t : Str) :
    prospectPreprocess t = t ∧
    stripCodeFences "```json\n\x7b\"ceo_name\": \"Jane Doe\"\x7d\n```".data =
      "\x7b\"ceo_name\": \"Jane Doe\"\x7d".data := ⟨rfl, rfl⟩

/-- C8: on JSON parse failure of the company extraction response, the
heuristic fallback run on the raw text "Industry: Fintech\n" sets
exactly the record's industry field to "Fintech" (first case-insensitive
label match, text to the next line break, split on the first colon,
remainder stripped) without crashing, leaving every other placeholder
untouched; the prospect path has no fallback — parse failure returns
the placeholder record unchanged. -/
theorem heuristic_fallback_fintech (n : Str) (c : Option Str) :
    companyApplyResponse n "Industry: Fintech\n".data (.error ()) =
      [("name".data, .str n),
       ("description".data, .null),
       ("industry".data, .str "Fintech".data),
       ("headquarters".data, .null),
       ("founded".data, .null),
       ("size".data, .null),
       ("ceo".data, .null),
       ("website".data, .null),
       ("executive_summary".data, .null)] ∧
    prospectApplyResponse n c (.error ()) = initialProspectData n c := ⟨rfl, rfl⟩

/-! ### Lemmas about record merging -/

theorem recGet_pyDictSet_ne (d : Rec) (k k' : Str) (v : JVal) (h : k' ≠ k) :
    recGet (pyDictSet d k' v) k = recGet d k := by
  induction d with
  | nil => simp [pyDictSet, recGet, h]
  | cons hd tl ih =>
      obtain ⟨k0, v0⟩ := hd
      by_cases hk : k0 = k'
      · subst hk; simp [pyDictSet, recGet, h]
      · simp [pyDictSet, recGet, hk, ih]

theorem recGet_mergeTruthy_ne (info : List (Str × JVal)) (d : Rec) (k : Str)
    (h : ∀ kv ∈ info, kv.1 ≠ k) :
    recGet (mergeTruthy d info) k = recGet d k := by
  induction info generalizing d with
  | nil => rfl
  | cons kv rest ih =>
      have hk : kv.1 ≠ k := h kv (List.mem_cons_self _ _)
      have h' : ∀ kv' ∈ rest, kv'.1 ≠ k := fun kv' hm => h kv' (List.mem_cons_of_mem _ hm)
      show recGet (mergeTruthy (if kv.2.truthy then pyDictSet d kv.1 kv.2 else d) rest) k
        = recGet d k
      rw [ih _ h']
      by_cases ht : kv.2.truthy
      · simp [ht, recGet_pyDictSet_ne _ _ _ _ hk]
      · simp [ht]

theorem recGet_setIfSome_ne (d : Rec) (key k : Str) (o : Option Str) (h : key ≠ k) :
    recGet (setIfSome d key o) k = recGet d k := by
  cases o with
  | none => rfl
  | some v =>
      dsimp [setIfSome]
      split
      · exact recGet_pyDictSet_ne _ _ _ _ h
      · rfl

theorem recGet_applyFallback_name (d : Rec) (fb : FallbackVals) :
    recGet (applyFallback d fb) "name".data = recGet d "name".data := by
  unfold applyFallback
  rw [recGet_setIfSome_ne _ _ _ _ (by decide), recGet_setIfSome_ne _ _ _ _ (by decide),
    recGet_setIfSome_ne _ _ _ _ (by decide), recGet_setIfSome_ne _ _ _ _ (by decide),
    recGet_setIfSome_ne _ _ _ _ (by decide), recGet_setIfSome_ne _ _ _ _ (by decide),
    recGet_setIfSome_ne _ _ _ _ (by decide)]

/-- C9: on every exit path of `scrape_company_info` and
`scrape_prospect_info` — successful merge, parse-failure fallback, and
the placeholder state every caught exception returns — the record's
name field equals the input entity name, provided the extraction
response uses only keys of the documented schemas (which contain no
"name" key). -/
theorem name_field_preserved (n raw : Str) (c : Option Str)
    (info info' : List (Str × JVal))
    (hc : ∀ kv ∈ info, kv.1 ∈ companySchemaKeys)
    (hp : ∀ kv ∈ info', kv.1 ∈ prospectSchemaKeys) :
    recGet (companyApplyResponse n raw (.ok info)) "name".data = some (.str n) ∧
    recGet (companyApplyResponse n raw (.error ())) "name".data = some (.str n) ∧
    recGet (prospectApplyResponse n c (.ok info')) "name".data = some (.str n) ∧
    recGet (prospectApplyResponse n c (.error ())) "name".data = some (.str n) := by
  have hcname : ∀ s ∈ companySchemaKeys, s ≠ "name".data := by decide
  have hpname : ∀ s ∈ prospectSchemaKeys, s ≠ "name".data := by decide
  have hcn : ∀ kv ∈ info, kv.1 ≠ "name".data := fun kv hm => hcname _ (hc kv hm)
  have hpn : ∀ kv ∈ info', kv.1 ≠ "name".data := fun kv hm => hpname _ (hp kv hm)
  refine ⟨?_, ?_, ?_, ?_⟩
  · show recGet (mergeTruthy (initialCompanyData n) info) _ = _
    rw [recGet_mergeTruthy_ne _ _ _ hcn]; rfl
  · show recGet (match heuristicExtract (stripCodeFences raw) with
      | .ok fb => applyFallback (initialCompanyData n) fb
      | .error _ => initialCompanyData n) _ = _
    cases heuristicExtract (stripCodeFences raw) with
    | ok fb => rw [recGet_applyFallback_name]; rfl
    | error e => rfl
  · show recGet (mergeTruthy (initialProspectData n c) info') _ = _
    rw [recGet_mergeTruthy_ne _ _ _ hpn]; rfl
  · rfl

/-- Witness for C9 at a concrete entity, company hint, raw response and
schema-keyed extraction responses. -/
theorem name_field_preserved_witness :
    recGet (companyApplyResponse "Acme Corp".data "oops".data
        (.ok [("industry".data, .str "Robotics".data)])) "name".data
      = some (.str "Acme Corp".data) ∧
    recGet (companyApplyResponse "Acme Corp".data "oops".data (.error ())) "name".data
      = some (.str "Acme Corp".data) ∧
    recGet (prospectApplyResponse "Acme Corp".data (some "Globex".data)
        (.ok [("location".data, .str "Austin".data)])) "name".data
      = some (.str "Acme Corp".data) ∧
    recGet (prospectApplyResponse "Acme Corp".data (some "Globex".data)
        (.error ())) "name".data
      = some (.str "Acme Corp".data) :=
  name_field_preserved "Acme Corp".data "oops".data (some "Globex".data)
    [("industry".data, .str "Robotics".data)]
    [("location".data, .str "Austin".data)]
    (by decide) (by decide)

/-- C10 counterexample: a successful generation call whose response text
is a single space yields the empty keyword list — `_generate_search_keywords`
can return an empty list, so the discovery loop is not always given a
keyword. -/
theorem keywords_empty_cex :
    generateSearchKeywords true "Acme Corp".data (.ok " ".data) = [] := by
  decide

/-- C10 amended: when the model is uninitialized, or the generation call
raises, `_generate_search_keywords` returns exactly the singleton list
containing the original query; only on those failure paths is a
non-empty keyword list guaranteed (a successful call returns the
stripped non-blank lines of the response, which may be none). -/
theorem keywords_failure_singleton (q : Str) (r : Except Unit Str) :
    generateSearchKeywords false q r = [q] ∧
    generateSearchKeywords true q (.error ()) = [q] := by
  constructor <;> simp [generateSearchKeywords]

end WebScraper
